import Mathlib

/-!
Shallow embedding of the VoIP pipeline in `src/Voip_0.0.6.py`.

The source is a single Python script: a transmit loop
(capture → filter → sample → quantize → encode → echo-cancel →
silence-suppress → compress → RTP-packetize → UDP-chunk → send)
and a receive loop (recvfrom → strip header → play), sharing the
module-level `CONFIG` dictionary.

Pure data transformations are embedded as Lean functions on `List ℕ`
(byte sequences) and `List ℚ` (floating-point sample frames, modelled
exactly over the rationals, with a separate `NpFloat` type capturing
numpy's non-finite values where the source can produce them).  The
stateful loops are embedded as explicit step functions / folds over
oracles for the external devices and the socket.
-/

/-- The module-level `CONFIG` dictionary (lines 10–23 of the source),
restricted to the fields the pipeline code actually reads.
`packet_interval = 0.02` is the exact rational 1/50. -/
structure Config where
  sampling_rate : ℚ
  quantization_bits : ℕ
  compression_enabled : Bool
  echo_cancellation : Bool
  silence_suppression : Bool
  packet_interval : ℚ
  max_udp_size : ℕ

/-- The concrete configuration values of lines 10–23. -/
def CONFIG : Config :=
  { sampling_rate := 48000
  , quantization_bits := 16
  , compression_enabled := false
  , echo_cancellation := true
  , silence_suppression := false
  , packet_interval := 1/50
  , max_udp_size := 1472 }

/-! ## numpy value model

`quantize_voice` (line 70) divides by `np.max(np.abs(sampled_data))`
with no guard, so the embedding must account for numpy's behaviour on a
zero divisor: `0/0` is NaN, `x/0` for `x ≠ 0` is ±inf (a RuntimeWarning
is printed in either case but no exception is raised).  `NpFloat` is a
rational together with those non-finite values. -/

/-- A numpy double: NaN, ±inf, or a finite value (modelled exactly as a
rational). -/
inductive NpFloat where
  | nan : NpFloat
  | posinf : NpFloat
  | neginf : NpFloat
  | val : ℚ → NpFloat
deriving DecidableEq

/-- numpy elementwise division of finite `a` by finite `b`:
`0/0 = nan`, `a/0 = ±inf` for `a ≠ 0`, ordinary division otherwise. -/
def npDivQ (a b : ℚ) : NpFloat :=
  if b = 0 then
    if a = 0 then NpFloat.nan
    else if 0 < a then NpFloat.posinf else NpFloat.neginf
  else NpFloat.val (a / b)

/-- `np.round` on a finite value: round half to even (banker's
rounding), which numpy uses; non-half values round to nearest. -/
def npRoundQ (q : ℚ) : ℚ :=
  if q - ⌊q⌋ = 1/2 then
    (if ⌊q⌋ % 2 = 0 then (⌊q⌋ : ℚ) else (⌊q⌋ : ℚ) + 1)
  else (round q : ℤ)

/-- `np.round` lifted to `NpFloat`: NaN and ±inf pass through. -/
def npRound : NpFloat → NpFloat
  | NpFloat.val q => NpFloat.val (npRoundQ q)
  | x => x

/-- `np.clip(x, lo, hi)`: NaN passes through, ±inf clip to the bounds,
finite values clamp into `[lo, hi]`. -/
def npClip (lo hi : ℚ) : NpFloat → NpFloat
  | NpFloat.nan => NpFloat.nan
  | NpFloat.posinf => NpFloat.val hi
  | NpFloat.neginf => NpFloat.val lo
  | NpFloat.val q => NpFloat.val (max lo (min hi q))

/-- `.astype(np.int16)` on one element.  On a finite value it truncates
toward zero (exact for the integer-valued, in-range results produced
after round and clip).  On NaN or ±inf the C cast is undefined
behaviour, modelled as `none`. -/
def npAstypeInt16 : NpFloat → Option ℤ
  | NpFloat.val q => some (q.num / (q.den : ℤ))
  | _ => none

/-- `np.max(np.abs(l))` for a frame `l`: the largest absolute value
(0 for the empty frame, which the source never produces: frames have
8192 samples). -/
def npAbsMax (l : List ℚ) : ℚ :=
  l.foldr (fun x m => max |x| m) 0

/-! ## Part 4: quantize_voice (lines 67–72) -/

/-- `quantize_voice` (lines 67–72): with
`max_val = 2^(quantization_bits-1) - 1`, computes
`np.clip(np.round(s * max_val / np.max(np.abs(data))), -max_val, max_val)`
elementwise and casts to int16.  There is no guard on the divisor. -/
def quantize_voice (sampled_data : List ℚ) : List (Option ℤ) :=
  let max_val : ℚ := 2 ^ (CONFIG.quantization_bits - 1) - 1
  let peak : ℚ := npAbsMax sampled_data
  sampled_data.map fun s =>
    npAstypeInt16 (npClip (-max_val) max_val (npRound (npDivQ (s * max_val) peak)))

/-! ## Part 2: filter_frequencies cutoffs (lines 50–58) -/

/-- `nyquist = CONFIG['sampling_rate'] / 2` (line 52), parameterised by
the sampling rate. -/
def nyquist (sampling_rate : ℚ) : ℚ := sampling_rate / 2

/-- `low = max(0.01, 300 / nyquist)` (line 53). -/
def filter_low (sampling_rate : ℚ) : ℚ :=
  max (1/100) (300 / nyquist sampling_rate)

/-- `high = min(0.99, 3400 / nyquist)` (line 54). -/
def filter_high (sampling_rate : ℚ) : ℚ :=
  min (99/100) (3400 / nyquist sampling_rate)

/-- The lower cutoff as the spec words it: 300 Hz divided by the
Nyquist frequency (half the input sampling rate), floored at 0.01. -/
def spec_lower_cutoff (sampling_rate : ℚ) : ℚ :=
  max (1/100) (300 / (sampling_rate / 2))

/-- The upper cutoff as the spec words it: 3400 Hz divided by the
Nyquist frequency, capped at 0.99. -/
def spec_upper_cutoff (sampling_rate : ℚ) : ℚ :=
  min (99/100) (3400 / (sampling_rate / 2))

/-! ## Part 1: capture_analog_voice (lines 39–47) -/

/-- `capture_analog_voice` (lines 39–47), with the device read made
explicit as an oracle value: `transmit_stream.read(8192)` either
returns a frame of int16 samples or raises.  On an exception the source
substitutes `np.zeros(8192, dtype=np.int16)` and continues. -/
def capture_analog_voice (readResult : Except String (List ℤ)) : List ℤ :=
  match readResult with
  | Except.ok data => data
  | Except.error _ => List.replicate 8192 0

/-! ## Parts 6–8: the optional encode-side stages (lines 82–104) -/

/-- `echo_cancellation` (lines 82–87): when the toggle is set the body
only prints; the payload is returned unchanged in both branches. -/
def echo_cancellation (cfg : Config) (encoded_data : List ℕ) : List ℕ :=
  encoded_data

/-- `silence_suppression` (lines 90–94): when the toggle is set the
body only prints; the payload is returned unchanged in both branches. -/
def silence_suppression (cfg : Config) (encoded_data : List ℕ) : List ℕ :=
  encoded_data

/-- Python `l[::2]`: the elements at even indices. -/
def everySecond : List α → List α
  | [] => []
  | [a] => [a]
  | a :: _ :: rest => a :: everySecond rest

/-- `compress_voice` (lines 97–104): when compression is enabled the
payload becomes `encoded_data[::2]`; otherwise it is unchanged. -/
def compress_voice (cfg : Config) (encoded_data : List ℕ) : List ℕ :=
  if cfg.compression_enabled then everySecond encoded_data else encoded_data

/-- The encode-side hook sequence exactly as `voip_service` applies it
(lines 146–148): echo cancellation, then silence suppression, then
compression. -/
def voip_service_encode (cfg : Config) (encoded_data : List ℕ) : List ℕ :=
  compress_voice cfg (silence_suppression cfg (echo_cancellation cfg encoded_data))

/-! ## Part 9: packetize_rtp (lines 107–112) -/

/-- `b'RTP_HEADER'` (line 109): the constant ten-byte placeholder
header, as ASCII codes. -/
def RTP_HEADER : List ℕ := [82, 84, 80, 95, 72, 69, 65, 68, 69, 82]

/-- `packetize_rtp` (lines 107–112): prepends the constant placeholder
header to the payload.  No sequence number, timestamp or any other
field is written; the function has no state. -/
def packetize_rtp (encoded_data : List ℕ) : List ℕ :=
  RTP_HEADER ++ encoded_data

/-! ## Part 10: encapsulate_udp (lines 115–123) -/

/-- The chunk split of line 120,
`[pkt[i:i+max_size] for i in range(0, len(pkt), max_size)]`,
parameterised by `max_size`: `range(0, n, m)` has `⌈n/m⌉ = (n+m-1)/m`
elements `0, m, 2m, …` (for `m ≥ 1`), and the slice `pkt[i:i+m]` is
`(pkt.drop i).take m`. -/
def udp_chunks (max_size : ℕ) (rtp_packet : List ℕ) : List (List ℕ) :=
  (List.range ((rtp_packet.length + max_size - 1) / max_size)).map
    fun k => (rtp_packet.drop (k * max_size)).take max_size

/-- `encapsulate_udp` (lines 115–123): the chunk split at the
configured `max_udp_size`. -/
def encapsulate_udp (rtp_packet : List ℕ) : List (List ℕ) :=
  udp_chunks CONFIG.max_udp_size rtp_packet

/-! ## Part 11: transmit_voice (lines 126–135) and voip_service
(lines 138–153)

`transmit_voice` sends each chunk with `sock.sendto` inside a plain
`for` loop with no `try`/`except`; `voip_service` calls it from a
`while True` body that also has no `try`/`except`.  A raised send
error therefore aborts the remaining chunks, escapes `voip_service`'s
loop and ends the transmit thread.  The socket send is an oracle
`send : List ℕ → Except String Unit`; a Python exception is the
`Except.error` case, which propagates exactly where the source has no
handler. -/

/-- `transmit_voice` (lines 126–135): sends the chunks in order; the
first send exception propagates (no handler), so later chunks are not
sent. -/
def transmit_voice (send : List ℕ → Except String Unit) :
    List (List ℕ) → Except String Unit
  | [] => Except.ok ()
  | chunk :: rest =>
    match send chunk with
    | Except.ok _ => transmit_voice send rest
    | Except.error e => Except.error e

/-- The `voip_service` loop (lines 138–153) from the packetizing stage
on, run over a finite list of per-iteration payloads (the bytes that
reach line 149).  Returns the number of completed iterations, or the
uncaught exception that ended the thread.  The loop body keeps no
variable across iterations: in particular there is no sequence
counter. -/
def voip_service_run (send : List ℕ → Except String Unit) :
    List (List ℕ) → Except String ℕ
  | [] => Except.ok 0
  | payload :: rest =>
    match transmit_voice send (encapsulate_udp (packetize_rtp payload)) with
    | Except.ok _ =>
      match voip_service_run send rest with
      | Except.ok k => Except.ok (k + 1)
      | Except.error e => Except.error e
    | Except.error e => Except.error e

/-- The packets constructed by successive `voip_service` iterations
whose payloads are the given list: packet construction (line 149)
depends only on that iteration's payload, since no state crosses
iterations. -/
def voip_service_packets (payloads : List (List ℕ)) : List (List ℕ) :=
  payloads.map packetize_rtp

/-! ## Receiver: voip_receiver (lines 170–181) and play_audio
(lines 162–168) -/

/-- What one pass of the `voip_receiver` loop body (lines 175–181)
does with one received datagram: the calls made to `play_audio`
(always exactly one, with `data[len(b'RTP_HEADER'):]`) and whether the
receive loop itself reported any error for the datagram (it has no
error branch, so never). -/
structure ReceiveStepResult where
  playbackCalls : List (List ℕ)
  protocolErrorReported : Bool
deriving DecidableEq

/-- One `voip_receiver` loop iteration on one datagram (lines
175–181): unconditionally strips the first `len(b'RTP_HEADER')` bytes
(Python slicing past the end yields the empty byte string) and passes
the remainder to `play_audio`; no length check, no error report. -/
def voip_receiver_step (data : List ℕ) : ReceiveStepResult :=
  { playbackCalls := [data.drop RTP_HEADER.length]
  , protocolErrorReported := false }

/-- The sample stream handed to the playback device by the receiver
when fed the given datagrams in order: the concatenation of all
`play_audio` arguments. -/
def voip_receiver_played (datagrams : List (List ℕ)) : List ℕ :=
  (datagrams.map fun d => ((voip_receiver_step d).playbackCalls).flatten).flatten

/-! ## Concrete instances used in the theorems below -/

/-- A send oracle whose `sendto` always raises (destination
unreachable), as `transmit_voice` would observe it. -/
def sendUnreachable : List ℕ → Except String Unit :=
  fun _ => Except.error "unreachable"

/-- The configuration with all three optional encode stages disabled. -/
def cfgAllStagesOff : Config :=
  { CONFIG with
    echo_cancellation := false
    silence_suppression := false
    compression_enabled := false }

/-- The configuration with compression enabled. -/
def cfgCompressOn : Config :=
  { CONFIG with compression_enabled := true }

/-! ## Helper lemmas -/

/-- A zero frame has zero peak amplitude. -/
theorem npAbsMax_replicate_zero (n : ℕ) : npAbsMax (List.replicate n (0:ℚ)) = 0 := by
  induction n with
  | zero => simp [npAbsMax]
  | succ n ih =>
    simp only [npAbsMax, List.replicate_succ, List.foldr_cons] at ih ⊢
    rw [ih]
    simp

/-- Chunking the empty byte sequence yields no chunks
(`range(0, 0, m)` is empty). -/
theorem udp_chunks_nil (m : ℕ) (hm : 1 ≤ m) : udp_chunks m ([] : List ℕ) = [] := by
  have h0 : (m - 1) / m = 0 := Nat.div_eq_of_lt (by omega)
  simp [udp_chunks, h0]

/-- Ceiling-division step: removing one full chunk of `m` from a
non-empty sequence lowers the chunk count by one. -/
theorem ceil_div_succ (m n : ℕ) (hm : 1 ≤ m) (hn : 1 ≤ n) :
    (n + m - 1) / m = (n - m + m - 1) / m + 1 := by
  rcases le_or_lt n m with h | h
  · have h1 : n + m - 1 = (n - 1) + m := by omega
    have h2 : n - m = 0 := by omega
    rw [h1, h2, Nat.add_div_right _ hm]
    have h3 : (n - 1) / m = 0 := Nat.div_eq_of_lt (by omega)
    have h4 : (0 + m - 1) / m = 0 := Nat.div_eq_of_lt (by omega)
    rw [h3, h4]
  · have h1 : n + m - 1 = (n - 1) + m := by omega
    have h2 : n - m + m - 1 = n - m - 1 + m := by omega
    rw [h1, h2, Nat.add_div_right _ hm, Nat.add_div_right _ hm]
    have h3 : n - 1 = (n - m - 1) + m := by omega
    rw [h3, Nat.add_div_right _ hm]

/-- The chunk split unfolds one chunk at a time: the first chunk is the
first `m` bytes, the rest is the split of the remainder. -/
theorem udp_chunks_cons (m : ℕ) (hm : 1 ≤ m) (P : List ℕ) (hP : P ≠ []) :
    udp_chunks m P = P.take m :: udp_chunks m (P.drop m) := by
  have hn : 1 ≤ P.length := List.length_pos.mpr hP
  unfold udp_chunks
  rw [List.length_drop, ceil_div_succ m P.length hm hn, List.range_succ_eq_map]
  simp only [List.map_cons, List.map_map, Nat.zero_mul, List.drop_zero]
  congr 1
  apply List.map_congr_left
  intro k _
  simp only [Function.comp_apply, List.drop_drop]
  congr 2
  rw [Nat.succ_mul]
  ring

/-- Concatenating the chunks in order reproduces the packet. -/
theorem udp_chunks_flatten (m : ℕ) (hm : 1 ≤ m) (P : List ℕ) :
    (udp_chunks m P).flatten = P := by
  have H : ∀ n (Q : List ℕ), Q.length ≤ n → (udp_chunks m Q).flatten = Q := by
    intro n
    induction n with
    | zero =>
      intro Q h
      have : Q = [] := List.eq_nil_of_length_eq_zero (by omega)
      subst this
      simp [udp_chunks_nil m hm]
    | succ n ih =>
      intro Q h
      rcases eq_or_ne Q [] with rfl | hQ
      · simp [udp_chunks_nil m hm]
      · rw [udp_chunks_cons m hm Q hQ, List.flatten_cons,
          ih (Q.drop m) (by simp; omega), List.take_append_drop]
  exact H P.length P le_rfl

/-- The number of chunks is `⌈len/m⌉ = (len + m - 1) / m`, exactly the
length of Python's `range(0, len, m)`. -/
theorem udp_chunks_length (m : ℕ) (P : List ℕ) :
    (udp_chunks m P).length = (P.length + m - 1) / m := by
  simp [udp_chunks]

/-- Every chunk is at most `m` bytes long. -/
theorem udp_chunks_sizes (m : ℕ) (P : List ℕ) :
    ∀ c ∈ udp_chunks m P, c.length ≤ m := by
  intro c hc
  simp only [udp_chunks, List.mem_map, List.mem_range] at hc
  obtain ⟨k, _, rfl⟩ := hc
  simp

/-- The `i`-th chunk is the slice `P[i*m : i*m + m]`. -/
theorem udp_chunks_getD (m : ℕ) (P : List ℕ) (i : ℕ)
    (h : i < (udp_chunks m P).length) :
    (udp_chunks m P).getD i [] = (P.drop (i * m)).take m := by
  rw [udp_chunks_length] at h
  simp [udp_chunks, List.getD_eq_getElem?_getD, List.getElem?_map, List.getElem?_range h]

/-- Every chunk except possibly the last is exactly `m` bytes long. -/
theorem udp_chunks_full (m : ℕ) (hm : 1 ≤ m) (P : List ℕ) (i : ℕ)
    (h : i + 1 < (udp_chunks m P).length) :
    ((udp_chunks m P).getD i []).length = m := by
  rw [udp_chunks_getD m P i (by omega)]
  rw [udp_chunks_length] at h
  have hn : 1 ≤ P.length := by
    by_contra hcon
    have h0 : P.length = 0 := by omega
    rw [h0] at h
    have : (0 + m - 1) / m = 0 := Nat.div_eq_of_lt (by omega)
    omega
  have hkey : (P.length + m - 1) / m = (P.length - 1) / m + 1 := by
    have h1 : P.length + m - 1 = (P.length - 1) + m := by omega
    rw [h1, Nat.add_div_right _ hm]
  rw [hkey] at h
  have hi : i + 1 ≤ (P.length - 1) / m := by omega
  have hmul : (i + 1) * m ≤ ((P.length - 1) / m) * m := Nat.mul_le_mul_right m hi
  have hle : (i + 1) * m ≤ P.length - 1 := le_trans hmul (Nat.div_mul_le_self _ _)
  simp only [List.length_take, List.length_drop]
  have hsm : (i + 1) * m = i * m + m := by ring
  omega

/-- A non-empty packet always produces at least one chunk. -/
theorem udp_chunks_ne_nil (m : ℕ) (hm : 1 ≤ m) (P : List ℕ) (hP : P ≠ []) :
    udp_chunks m P ≠ [] := by
  have hn : 1 ≤ P.length := List.length_pos.mpr hP
  have hone : 1 ≤ (P.length + m - 1) / m := by
    rw [Nat.one_le_div_iff hm]; omega
  intro hcon
  have hl := udp_chunks_length m P
  rw [hcon] at hl
  simp at hl
  omega

/-- The receiver's played stream is the concatenation of each datagram
with its first `len(b'RTP_HEADER')` bytes removed. -/
theorem voip_receiver_played_eq (datagrams : List (List ℕ)) :
    voip_receiver_played datagrams
      = (datagrams.map fun d => d.drop RTP_HEADER.length).flatten := by
  simp [voip_receiver_played, voip_receiver_step]

/-- Taking every second element halves the length, rounding up. -/
theorem everySecond_length (l : List α) :
    (everySecond l).length = (l.length + 1) / 2 := by
  induction l using everySecond.induct with
  | case1 => simp [everySecond]
  | case2 a => simp [everySecond]
  | case3 a b rest ih =>
    simp only [everySecond, List.length_cons, ih]
    omega

/-- The `i`-th surviving element of `l[::2]` is `l[2*i]`. -/
theorem everySecond_getD (l : List α) (d : α) :
    ∀ i, i < (everySecond l).length → (everySecond l).getD i d = l.getD (2 * i) d := by
  induction l using everySecond.induct with
  | case1 =>
    intro i h
    simp [everySecond] at h
  | case2 a =>
    intro i h
    simp [everySecond] at h
    subst h
    simp [everySecond]
  | case3 a b rest ih =>
    intro i h
    cases i with
    | zero => simp [everySecond]
    | succ i =>
      simp only [everySecond, List.length_cons] at h
      have h2 : 2 * (i + 1) = 2 * i + 1 + 1 := by omega
      simp only [everySecond, List.getD_cons_succ, h2]
      exact ih i (by omega)

/-! ## Claims -/

/-- Claim C1 (refuted by the code; the code contradicts its own
capture-failure design): `quantize_voice` has no guard on the peak
amplitude.  On the all-zero 8192-sample frame — exactly the frame
`capture_analog_voice` synthesizes after a device error — the peak
`np.max(np.abs(data))` is 0, the scale step is executed anyway, and
every sample becomes `0 * 32767 / 0 = NaN`, whose int16 cast is
undefined (`none`), not the all-zero output the claim requires. -/
theorem quantize_voice_zero_frame_all_nan :
    quantize_voice (List.replicate 8192 (0:ℚ)) = List.replicate 8192 none := by
  simp only [quantize_voice, npAbsMax_replicate_zero, List.map_replicate, zero_mul]
  norm_num [npDivQ, npRound, npClip, npAstypeInt16]

/-- Claim C2, counterexample: the claim says two consecutive Transmit
Cycle iterations starting at sequence 0 emit headers carrying 0 and
1 (mod 2^32).  The code's header is the constant `b'RTP_HEADER'`: the
two headers are byte-for-byte equal, so no decoding function `read`
can recover 0 from the first and 1 from the second. -/
theorem packet_sequence_numbers_counterexample :
    ((voip_service_packets [[0], [1]]).getD 0 []).take RTP_HEADER.length
      = ((voip_service_packets [[0], [1]]).getD 1 []).take RTP_HEADER.length
    ∧ ¬ ∃ read : List ℕ → ℕ,
        read (((voip_service_packets [[0], [1]]).getD 0 []).take RTP_HEADER.length)
            = 0 % 2 ^ 32
        ∧ read (((voip_service_packets [[0], [1]]).getD 1 []).take RTP_HEADER.length)
            = 1 % 2 ^ 32 := by
  have he : ((voip_service_packets [[0], [1]]).getD 0 []).take RTP_HEADER.length
      = ((voip_service_packets [[0], [1]]).getD 1 []).take RTP_HEADER.length := by
    decide
  refine ⟨he, ?_⟩
  rintro ⟨read, h0, h1⟩
  rw [he] at h0
  rw [h0] at h1
  norm_num at h1

/-- Claim C2 as amended: every packet the Transmit Cycle constructs
carries the same constant ten-byte header `b'RTP_HEADER'`; there is no
sequence number and no counter advances, regardless of payloads,
chunk counts or send outcomes. -/
theorem packet_header_constant :
    ∀ (payloads : List (List ℕ)), ∀ pk ∈ voip_service_packets payloads,
      pk.take RTP_HEADER.length = RTP_HEADER := by
  intro payloads pk hpk
  simp only [voip_service_packets, List.mem_map] at hpk
  obtain ⟨payload, _, rfl⟩ := hpk
  show (RTP_HEADER ++ payload).take RTP_HEADER.length = RTP_HEADER
  exact List.take_left RTP_HEADER payload

/-- Witness for `packet_header_constant` at a one-iteration run. -/
theorem packet_header_constant_witness :
    (packetize_rtp [3]).take RTP_HEADER.length = RTP_HEADER :=
  packet_header_constant [[3]] (packetize_rtp [3]) (by simp [voip_service_packets])

/-- Claim C3 (refuted by the code; the receiver's own comment claims
it removes the RTP header, but chunks after the first carry no
header): on an 8192-byte payload the packet is `10 + 8192 = 8202`
bytes and splits into `⌈8202/1472⌉ = 6` chunks — those parts of the
claim hold — but feeding the 6 chunks back strips 10 bytes from each
datagram, so the played stream has `8202 - 6*10 = 8142` bytes and is
not bit-identical to the 8192-byte payload. -/
theorem end_to_end_chunks_lose_bytes :
    (packetize_rtp (List.replicate 8192 0)).length = RTP_HEADER.length + 8192
    ∧ (encapsulate_udp (packetize_rtp (List.replicate 8192 0))).length = 6
    ∧ (voip_receiver_played
        (encapsulate_udp (packetize_rtp (List.replicate 8192 0)))).length = 8142
    ∧ voip_receiver_played (encapsulate_udp (packetize_rtp (List.replicate 8192 0)))
        ≠ List.replicate 8192 0 := by
  have hlen : (packetize_rtp (List.replicate 8192 (0:ℕ))).length = 8202 := by
    simp only [packetize_rtp, List.length_append, List.length_replicate, RTP_HEADER,
      List.length_cons, List.length_nil]
  have hmux : CONFIG.max_udp_size = 1472 := rfl
  have hchunks : (encapsulate_udp (packetize_rtp (List.replicate 8192 (0:ℕ)))).length = 6 := by
    rw [encapsulate_udp, udp_chunks_length, hlen, hmux]
  have hplayed : (voip_receiver_played
      (encapsulate_udp (packetize_rtp (List.replicate 8192 (0:ℕ))))).length = 8142 := by
    rw [voip_receiver_played_eq, List.length_flatten, List.map_map,
      encapsulate_udp, hmux]
    unfold udp_chunks
    rw [hlen]
    rw [show (8202 + 1472 - 1) / 1472 = 6 from by norm_num]
    rw [show List.range 6 = [0, 1, 2, 3, 4, 5] from by decide]
    simp only [List.map_cons, List.map_nil, Function.comp_apply, List.length_drop,
      List.length_take, hlen, List.sum_cons, List.sum_nil]
    norm_num [RTP_HEADER]
  refine ⟨by rw [hlen]; decide, hchunks, hplayed, ?_⟩
  intro hcon
  have hcl := congrArg List.length hcon
  rw [hplayed, List.length_replicate] at hcl
  exact absurd hcl (by norm_num)

/-- Claim C4: for `m ≥ 1` and a non-empty packet `P`, the chunk split
has exactly `⌈len(P)/m⌉ = (len(P)+m-1)/m` chunks, each at most `m`
bytes with only the last possibly shorter, their in-order
concatenation is `P`, and the chunk list is never empty. -/
theorem chunk_round_trip (P : List ℕ) (m : ℕ) (hm : 1 ≤ m) (hP : P ≠ []) :
    (udp_chunks m P).length = (P.length + m - 1) / m
    ∧ (∀ c ∈ udp_chunks m P, c.length ≤ m)
    ∧ (∀ i, i + 1 < (udp_chunks m P).length → ((udp_chunks m P).getD i []).length = m)
    ∧ (udp_chunks m P).flatten = P
    ∧ udp_chunks m P ≠ [] :=
  ⟨udp_chunks_length m P, udp_chunks_sizes m P,
   fun i h => udp_chunks_full m hm P i h,
   udp_chunks_flatten m hm P, udp_chunks_ne_nil m hm P hP⟩

/-- Witness for `chunk_round_trip` at `P = [1,2,3]`, `m = 2`. -/
theorem chunk_round_trip_witness :
    (udp_chunks 2 [1, 2, 3]).flatten = [1, 2, 3]
    ∧ (udp_chunks 2 [1, 2, 3]).length = ([1, 2, 3].length + 2 - 1) / 2
    ∧ udp_chunks 2 [1, 2, 3] ≠ [] :=
  ⟨(chunk_round_trip [1, 2, 3] 2 (by decide) (by decide)).2.2.2.1,
   (chunk_round_trip [1, 2, 3] 2 (by decide) (by decide)).1,
   (chunk_round_trip [1, 2, 3] 2 (by decide) (by decide)).2.2.2.2⟩

/-- Claim C5, counterexample: the three-byte datagram `[1,2,3]` is
shorter than the header, yet the receiver does not discard it — it
still makes a playback call — and reports no error. -/
theorem undersized_datagram_not_rejected_counterexample :
    ([1, 2, 3] : List ℕ).length < RTP_HEADER.length
    ∧ (voip_receiver_step [1, 2, 3]).playbackCalls ≠ []
    ∧ (voip_receiver_step [1, 2, 3]).protocolErrorReported = false :=
  ⟨by decide, by decide, rfl⟩

/-- Claim C5 as amended: an undersized datagram is not rejected and no
error is reported; the receiver unconditionally strips the first ten
bytes (slicing past the end yields the empty byte string) and invokes
playback exactly once with that empty payload — so no datagram byte
reaches the Playback Sink, and the loop continues. -/
theorem undersized_datagram_plays_empty (d : List ℕ)
    (h : d.length < RTP_HEADER.length) :
    (voip_receiver_step d).playbackCalls = [[]]
    ∧ (voip_receiver_step d).protocolErrorReported = false := by
  constructor
  · simp only [voip_receiver_step]
    rw [List.drop_eq_nil_of_le (by omega)]
  · rfl

/-- Witness for `undersized_datagram_plays_empty` at a two-byte
datagram. -/
theorem undersized_datagram_plays_empty_witness :
    (voip_receiver_step [5, 6]).playbackCalls = [[]]
    ∧ (voip_receiver_step [5, 6]).protocolErrorReported = false :=
  undersized_datagram_plays_empty [5, 6] (by decide)

/-- Claim C6, counterexample: with a send that always fails, a
two-iteration run of the service loop does not complete both
iterations with the failure contained — the exception escapes
(`transmit_voice` and `voip_service` have no handler) and the run ends
with the error. -/
theorem send_failure_kills_service_counterexample :
    voip_service_run sendUnreachable [[0], [1]] = Except.error "unreachable"
    ∧ voip_service_run sendUnreachable [[0], [1]] ≠ Except.ok 2 := by
  constructor
  · rfl
  · intro hcon
    rw [show voip_service_run sendUnreachable [[0], [1]]
        = Except.error "unreachable" from rfl] at hcon
    exact Except.noConfusion hcon

/-- Claim C6 as amended: a send failure is not contained — the first
failing `sendto` aborts the remaining chunks of the iteration, and the
uncaught exception terminates the service loop, so no further
iteration runs. -/
theorem send_failure_propagates :
    (∀ (send : List ℕ → Except String Unit) (chunk : List ℕ)
        (rest : List (List ℕ)) (e : String),
      send chunk = Except.error e →
      transmit_voice send (chunk :: rest) = Except.error e)
    ∧ (∀ (send : List ℕ → Except String Unit) (payload : List ℕ)
        (rest : List (List ℕ)) (e : String),
      transmit_voice send (encapsulate_udp (packetize_rtp payload)) = Except.error e →
      voip_service_run send (payload :: rest) = Except.error e) := by
  constructor
  · intro send chunk rest e h
    simp only [transmit_voice, h]
  · intro send payload rest e h
    simp only [voip_service_run, h]

/-- Witness for `send_failure_propagates`: a failing send ends both
the chunk loop and the service loop with the error. -/
theorem send_failure_propagates_witness :
    transmit_voice sendUnreachable [[7]] = Except.error "unreachable"
    ∧ voip_service_run sendUnreachable [[9]] = Except.error "unreachable" :=
  ⟨send_failure_propagates.1 sendUnreachable [7] [] "unreachable" rfl,
   send_failure_propagates.2 sendUnreachable [9] [] "unreachable" rfl⟩

/-- Claim C7: the encode-side hooks run in the fixed order
echo-cancellation, then silence-suppression, then compression (exactly
as `voip_service` composes them), and each stage whose toggle is
disabled returns the payload unchanged. -/
theorem encode_stages_order_and_disabled_identity :
    (∀ (cfg : Config) (p : List ℕ),
      voip_service_encode cfg p
        = compress_voice cfg (silence_suppression cfg (echo_cancellation cfg p)))
    ∧ (∀ (cfg : Config) (p : List ℕ),
        cfg.echo_cancellation = false → echo_cancellation cfg p = p)
    ∧ (∀ (cfg : Config) (p : List ℕ),
        cfg.silence_suppression = false → silence_suppression cfg p = p)
    ∧ (∀ (cfg : Config) (p : List ℕ),
        cfg.compression_enabled = false → compress_voice cfg p = p) := by
  refine ⟨fun cfg p => rfl, fun cfg p _ => rfl, fun cfg p _ => rfl, fun cfg p h => ?_⟩
  simp [compress_voice, h]

/-- Witness for `encode_stages_order_and_disabled_identity` with all
three toggles off. -/
theorem encode_stages_order_and_disabled_identity_witness :
    voip_service_encode cfgAllStagesOff [1, 2, 3]
      = compress_voice cfgAllStagesOff (silence_suppression cfgAllStagesOff
          (echo_cancellation cfgAllStagesOff [1, 2, 3]))
    ∧ echo_cancellation cfgAllStagesOff [1, 2, 3] = [1, 2, 3]
    ∧ silence_suppression cfgAllStagesOff [1, 2, 3] = [1, 2, 3]
    ∧ compress_voice cfgAllStagesOff [1, 2, 3] = [1, 2, 3] :=
  ⟨encode_stages_order_and_disabled_identity.1 cfgAllStagesOff [1, 2, 3],
   encode_stages_order_and_disabled_identity.2.1 cfgAllStagesOff [1, 2, 3] rfl,
   encode_stages_order_and_disabled_identity.2.2.1 cfgAllStagesOff [1, 2, 3] rfl,
   encode_stages_order_and_disabled_identity.2.2.2 cfgAllStagesOff [1, 2, 3] rfl⟩

/-- Claim C8: when the device read fails, `capture_analog_voice`
returns the synthesized all-zero frame of the expected fixed length
8192 instead of raising, so the iteration proceeds normally. -/
theorem capture_failure_yields_zero_frame (e : String) :
    capture_analog_voice (Except.error e) = List.replicate 8192 0
    ∧ (capture_analog_voice (Except.error e)).length = 8192 := by
  constructor
  · rfl
  · simp only [capture_analog_voice, List.length_replicate]

/-- Witness for `capture_failure_yields_zero_frame` at a concrete
error message. -/
theorem capture_failure_yields_zero_frame_witness :
    capture_analog_voice (Except.error "device read error") = List.replicate 8192 0 :=
  (capture_failure_yields_zero_frame "device read error").1

/-- Claim C9: for every sampling rate the band-pass cutoffs of
`filter_frequencies` are exactly the spec's formulas — the lower
cutoff is `max(0.01, 300/nyquist)` and the upper is
`min(0.99, 3400/nyquist)` with `nyquist = rate/2` — and they respect
the floor 0.01 and ceiling 0.99. -/
theorem filter_cutoffs_match_spec (sampling_rate : ℚ) :
    filter_low sampling_rate = spec_lower_cutoff sampling_rate
    ∧ filter_high sampling_rate = spec_upper_cutoff sampling_rate
    ∧ 1/100 ≤ filter_low sampling_rate
    ∧ filter_high sampling_rate ≤ 99/100 :=
  ⟨rfl, rfl, le_max_left _ _, min_le_left _ _⟩

/-- Witness for `filter_cutoffs_match_spec` at the configured 48 kHz
rate. -/
theorem filter_cutoffs_match_spec_witness :
    filter_low 48000 = spec_lower_cutoff 48000
    ∧ filter_high 48000 ≤ 99/100 :=
  ⟨(filter_cutoffs_match_spec 48000).1, (filter_cutoffs_match_spec 48000).2.2.2⟩

/-- Claim C10: with compression enabled, `compress_voice` keeps
exactly the bytes at even indices — output length `⌈n/2⌉ = (n+1)/2`
and output byte `i` is input byte `2i` — a raw byte decimation that
ignores the 2-byte sample boundaries. -/
theorem compress_enabled_keeps_even_indexed_bytes (cfg : Config) (d : List ℕ)
    (h : cfg.compression_enabled = true) :
    (compress_voice cfg d).length = (d.length + 1) / 2
    ∧ ∀ i, i < (compress_voice cfg d).length →
        (compress_voice cfg d).getD i 0 = d.getD (2 * i) 0 := by
  have hc : compress_voice cfg d = everySecond d := by simp [compress_voice, h]
  rw [hc]
  exact ⟨everySecond_length d, everySecond_getD d 0⟩

/-- Witness for `compress_enabled_keeps_even_indexed_bytes` on a
five-byte payload. -/
theorem compress_enabled_keeps_even_indexed_bytes_witness :
    (compress_voice cfgCompressOn [10, 20, 30, 40, 50]).length
      = ([10, 20, 30, 40, 50].length + 1) / 2
    ∧ (compress_voice cfgCompressOn [10, 20, 30, 40, 50]).getD 1 0
      = [10, 20, 30, 40, 50].getD (2 * 1) 0 :=
  ⟨(compress_enabled_keeps_even_indexed_bytes cfgCompressOn [10, 20, 30, 40, 50] rfl).1,
   (compress_enabled_keeps_even_indexed_bytes cfgCompressOn [10, 20, 30, 40, 50] rfl).2
     1 (by decide)⟩
